import Mathlib

/-!
Verification of the SRG_RM_Copilot_v2 ETL script (`src/srg_rm_copilot/etl.py`).

The script is a sequential pipeline: a retrying HTTP GET wrapper
(`_get_with_retry`), a listings-payload normalizer (`_extract_listing_ids`),
an inline metrics-record normalizer, and an orchestrator (`etl`) that writes
one parquet file per listing per date.

Shallow embedding conventions:
* JSON-decoded Python values are modelled by the inductive `JVal`; JSON
  objects become insertion-ordered association lists (Python dicts preserve
  insertion order; objects decoded from JSON have distinct keys, so
  `List.lookup` agrees with Python dict lookup on all reachable values).
  Numeric payloads are modelled as integers.
* The network is modelled as a function from the attempt index to the
  response the server gives on that attempt; a response is a status code
  plus a decoded body.
* `time.sleep` is modelled by recording the requested delay (an exact
  rational; for the delays the code computes, `(2 ** attempt) * 1.0`,
  float arithmetic is exact, so ℚ is faithful).
* Raised exceptions become `Except.error` carrying the HTTP status.
-/

namespace SrgRm

/-- Decoded JSON values as Python represents them (`None`, `bool`, `int`,
`str`, `list`, `dict`). Objects keep field insertion order. -/
inductive JVal where
  | null
  | bool (b : Bool)
  | num (n : Int)
  | str (s : String)
  | arr (items : List JVal)
  | obj (fields : List (String × JVal))
deriving Repr

mutual

/-- Python `repr` of a decoded JSON value (`repr(None) = "None"`,
`repr(True) = "True"`, strings quoted, lists bracketed, dicts braced).
String-escaping corner cases are not modelled; no claim exercises them. -/
def pyRepr : JVal → String
  | .null => "None"
  | .bool true => "True"
  | .bool false => "False"
  | .num n => toString n
  | .str s => "\x27" ++ s ++ "\x27"
  | .arr items => "[" ++ pyReprItems items ++ "]"
  | .obj fields => "\x7b" ++ pyReprFields fields ++ "\x7d"

/-- Comma-joined `repr`s of list elements, as Python prints a list body. -/
def pyReprItems : List JVal → String
  | [] => ""
  | [x] => pyRepr x
  | x :: y :: rest => pyRepr x ++ ", " ++ pyReprItems (y :: rest)

/-- Comma-joined `key: value` pairs, as Python prints a dict body. -/
def pyReprFields : List (String × JVal) → String
  | [] => ""
  | [(k, v)] => "\x27" ++ k ++ "\x27: " ++ pyRepr v
  | (k, v) :: p :: rest =>
      "\x27" ++ k ++ "\x27: " ++ pyRepr v ++ ", " ++ pyReprFields (p :: rest)

end

/-- Python `str` of a decoded JSON value: the string itself for `str`
values, `repr` otherwise. -/
def pyStr : JVal → String
  | .str s => s
  | v => pyRepr v

/-- An HTTP response: status code and JSON-decoded body. -/
structure Response where
  status : Nat
  body : JVal

/-- httpx `Response.raise_for_status` raises exactly when the status is not
a success (2xx) status. -/
def isSuccessStatus (s : Nat) : Bool := 200 ≤ s && s ≤ 299

/-- What one call of `_get_with_retry` produces: the returned body or the
raised HTTP status, together with how many GET requests were issued and the
sleeps performed (in order, in seconds). -/
structure FetchOutcome where
  result : Except Nat JVal
  attempts : Nat
  delays : List ℚ
deriving Repr

/-- The `while True` loop of `_get_with_retry`, entered with counter
`attempt`. The server is a function from attempt index to response. If the
response is 429 and `attempt < max_retries - 1`, sleep
`(2 ** attempt) * backoff_factor` seconds, increment, retry; otherwise
`raise_for_status` (error for any non-2xx) and return the decoded body. -/
def getWithRetryFrom (server : Nat → Response) (maxRetries : Int)
    (backoffFactor : ℚ) (attempt : Nat) : FetchOutcome :=
  let r := server attempt
  if h : r.status = 429 ∧ (attempt : Int) < maxRetries - 1 then
    let rest := getWithRetryFrom server maxRetries backoffFactor (attempt + 1)
    { result := rest.result
      attempts := rest.attempts + 1
      delays := ((2 : ℚ) ^ attempt * backoffFactor) :: rest.delays }
  else if isSuccessStatus r.status then
    { result := .ok r.body, attempts := 1, delays := [] }
  else
    { result := .error r.status, attempts := 1, delays := [] }
termination_by (maxRetries - 1 - (attempt : Int)).toNat
decreasing_by
  omega

/-- `_get_with_retry`: the loop started at `attempt = 0`. -/
def getWithRetry (server : Nat → Response) (maxRetries : Int := 3)
    (backoffFactor : ℚ := 1) : FetchOutcome :=
  getWithRetryFrom server maxRetries backoffFactor 0

/-- The per-element rule of `_extract_listing_ids`:
`str(item["id"]) if isinstance(item, dict) and "id" in item else str(item)`. -/
def listingId (item : JVal) : String :=
  match item with
  | .obj fields =>
    match fields.lookup "id" with
    | some v => pyStr v
    | none => pyStr (.obj fields)
  | _ => pyStr item

/-- `_extract_listing_ids`: a list maps element-by-element through
`listingId`; a dict whose `results` value is a list maps that list the same
way, and otherwise falls back to its stringified keys (insertion order);
every other payload gives `[]`. -/
def extractListingIds : JVal → List String
  | .arr items => items.map listingId
  | .obj fields =>
    match fields.lookup "results" with
    | some (.arr results) => results.map listingId
    | _ => fields.map fun kv => kv.1
  | _ => []

/-- The inline metrics normalization of `etl` (lines 147-160): `None` gives
`[]`; a list is used as-is; a dict gives its `data` value if that is a
list, else its `results` value if that is a list, else the whole dict as a
single record; anything else gives `[]`. -/
def extractRecords : JVal → List JVal
  | .null => []
  | .arr items => items
  | .obj fields =>
    match fields.lookup "data" with
    | some (.arr d) => d
    | _ =>
      match fields.lookup "results" with
      | some (.arr r) => r
      | _ => [.obj fields]
  | _ => []

/-- Output path for one listing and date:
`os.path.join("data", "raw", str(listing_id))` joined with
`f"{target_date}.parquet"`. -/
def outPath (listingId targetDate : String) : String :=
  "data/raw/" ++ listingId ++ "/" ++ targetDate ++ ".parquet"

/-- The environment variables `etl` reads. Python `if not base_url` treats
both an unset and an empty variable as missing. -/
structure Env where
  baseUrl : Option String
  apiKey : Option String

/-- The upstream API, abstracted: for each endpoint, the response given on
the n-th GET of that endpoint within one `_get_with_retry` call.
`listings` serves `GET {base}/listings`; `metrics id` serves
`GET {base}/listings/{id}/metrics` (query parameters are
`start_date = end_date = target_date`, fixed throughout a run). -/
structure Server where
  listings : Nat → Response
  metrics : String → Nat → Response

/-- Result of the per-listing loop of `etl`: requests issued, files written
as (path, row count) in order — `pd.DataFrame(records)` has `len(records)`
rows — the per-listing echo lines, and the HTTP status of the uncaught
fetch error that aborted the loop, if any. -/
structure LoopResult where
  requests : Nat
  writes : List (String × Nat)
  stdout : List String
  failed : Option Nat
deriving Repr

/-- The `for listing_id in listing_ids` loop of `etl`: fetch metrics with
the default retry policy, normalize, write the parquet file, echo; an HTTP
error aborts the loop at once, keeping files already written. -/
def processListings (metrics : String → Nat → Response) (targetDate : String) :
    List String → LoopResult
  | [] => { requests := 0, writes := [], stdout := [], failed := none }
  | id :: rest =>
    let f := getWithRetry (metrics id)
    match f.result with
    | .error s => { requests := f.attempts, writes := [], stdout := [], failed := some s }
    | .ok body =>
      let p := outPath id targetDate
      let n := (extractRecords body).length
      let r := processListings metrics targetDate rest
      { requests := f.attempts + r.requests
        writes := (p, n) :: r.writes
        stdout := ("Wrote metrics for listing " ++ id ++ " to " ++ p) :: r.stdout
        failed := r.failed }

/-- Observable result of one `etl` run: process exit code, stderr and
stdout lines, the total number of HTTP requests issued, and the parquet
writes as (path, row count) in the order performed. -/
structure RunResult where
  exitCode : Nat
  stderr : List String
  stdout : List String
  requests : Nat
  writes : List (String × Nat)
deriving Repr

/-- The `etl` command after date resolution (the target date is passed
already formatted as `YYYY-MM-DD`). Missing/empty `WHEELHOUSE_BASE_URL`
echoes to stderr and exits 1 before any request; an uncaught
`httpx.HTTPStatusError` makes the process exit 1. -/
def etlRun (env : Env) (server : Server) (targetDate : String) : RunResult :=
  match env.baseUrl with
  | none =>
    { exitCode := 1
      stderr := ["Environment variable WHEELHOUSE_BASE_URL must be set."]
      stdout := [], requests := 0, writes := [] }
  | some u =>
    if u = "" then
      { exitCode := 1
        stderr := ["Environment variable WHEELHOUSE_BASE_URL must be set."]
        stdout := [], requests := 0, writes := [] }
    else
      let lf := getWithRetry server.listings
      match lf.result with
      | .error _ =>
        { exitCode := 1, stderr := [], stdout := []
          requests := lf.attempts, writes := [] }
      | .ok body =>
        let ids := extractListingIds body
        if ids.isEmpty then
          { exitCode := 0, stderr := []
            stdout := ["No listings returned from /listings endpoint."]
            requests := lf.attempts, writes := [] }
        else
          let r := processListings server.metrics targetDate ids
          { exitCode := if r.failed.isSome then 1 else 0
            stderr := [], stdout := r.stdout
            requests := lf.attempts + r.requests, writes := r.writes }

/-- A file store: path to row count of the parquet file there, if any. -/
def Store := String → Option Nat

/-- `df.to_parquet(out_path)` replaces the file at `out_path` wholesale. -/
def applyWrite (store : Store) (w : String × Nat) : Store :=
  fun p => if p = w.1 then some w.2 else store p

/-- Perform a run's writes in order on an initial store. -/
def applyWrites (writes : List (String × Nat)) (store : Store) : Store :=
  writes.foldl applyWrite store

/-! ### Unfolding lemmas for the retry loop -/

/-- One retry step: on 429 with attempts remaining, the loop sleeps
`(2 ^ attempt) * backoff_factor` and re-enters with the counter bumped. -/
theorem getWithRetryFrom_retry (server : Nat → Response) (mr : Int) (b : ℚ)
    (a : Nat) (h1 : (server a).status = 429) (h2 : (a : Int) < mr - 1) :
    getWithRetryFrom server mr b a =
      { result := (getWithRetryFrom server mr b (a + 1)).result
        attempts := (getWithRetryFrom server mr b (a + 1)).attempts + 1
        delays := (2 : ℚ) ^ a * b :: (getWithRetryFrom server mr b (a + 1)).delays } := by
  conv_lhs => rw [getWithRetryFrom]
  simp only [dif_pos (And.intro h1 h2)]

/-- Terminal step: once the retry guard fails, the loop issues the single
request and either returns the body (2xx) or raises the status. -/
theorem getWithRetryFrom_stop (server : Nat → Response) (mr : Int) (b : ℚ)
    (a : Nat) (h : ¬((server a).status = 429 ∧ (a : Int) < mr - 1)) :
    getWithRetryFrom server mr b a =
      if isSuccessStatus (server a).status then
        { result := .ok (server a).body, attempts := 1, delays := [] }
      else
        { result := .error (server a).status, attempts := 1, delays := [] } := by
  conv_lhs => rw [getWithRetryFrom]
  simp only [dif_neg h]

/-- A 2xx response returns the decoded body at once. -/
theorem getWithRetryFrom_success (server : Nat → Response) (mr : Int) (b : ℚ)
    (a : Nat) (h : isSuccessStatus (server a).status = true) :
    getWithRetryFrom server mr b a =
      { result := .ok (server a).body, attempts := 1, delays := [] } := by
  have h429 : (server a).status ≠ 429 := by
    intro hc
    rw [hc] at h
    simp [isSuccessStatus] at h
  rw [getWithRetryFrom_stop server mr b a (fun hc => h429 hc.1), if_pos h]

/-- A non-2xx response that does not take the retry branch raises its
status at once. -/
theorem getWithRetryFrom_error (server : Nat → Response) (mr : Int) (b : ℚ)
    (a : Nat) (hns : isSuccessStatus (server a).status = false)
    (h : ¬((server a).status = 429 ∧ (a : Int) < mr - 1)) :
    getWithRetryFrom server mr b a =
      { result := .error (server a).status, attempts := 1, delays := [] } := by
  rw [getWithRetryFrom_stop server mr b a h, if_neg (by simp [hns])]

/-- The loop entered at counter `a` issues at most `(mr - 1 - a).toNat + 1`
requests. -/
theorem getWithRetryFrom_attempts_le (server : Nat → Response) (mr : Int)
    (b : ℚ) :
    ∀ (k a : Nat), (mr - 1 - (a : Int)).toNat ≤ k →
      (getWithRetryFrom server mr b a).attempts ≤ (mr - 1 - (a : Int)).toNat + 1 := by
  intro k
  induction k with
  | zero =>
    intro a ha
    have hrem : ¬((a : Int) < mr - 1) := by omega
    rw [getWithRetryFrom_stop server mr b a (fun hc => hrem hc.2)]
    split <;> simp
  | succ k ih =>
    intro a ha
    by_cases hc : (server a).status = 429 ∧ (a : Int) < mr - 1
    · rw [getWithRetryFrom_retry server mr b a hc.1 hc.2]
      have hk : (mr - 1 - ((a : Nat) + 1 : Nat)).toNat ≤ k := by
        push_cast
        omega
      have := ih (a + 1) hk
      simp only []
      omega
    · rw [getWithRetryFrom_stop server mr b a hc]
      split <;> simp

/-- If the server answers 429 on every attempt, the loop exhausts its
budget exactly and surfaces the 429 error. -/
theorem getWithRetryFrom_all429 (server : Nat → Response)
    (h : ∀ n, (server n).status = 429) (mr : Int) (b : ℚ) :
    ∀ (k a : Nat), (mr - 1 - (a : Int)).toNat ≤ k →
      (getWithRetryFrom server mr b a).result = .error 429 ∧
      (getWithRetryFrom server mr b a).attempts = (mr - 1 - (a : Int)).toNat + 1 := by
  intro k
  induction k with
  | zero =>
    intro a ha
    have hrem : ¬((a : Int) < mr - 1) := by omega
    rw [getWithRetryFrom_stop server mr b a (fun hc => hrem hc.2)]
    rw [if_neg (by simp [h a, isSuccessStatus])]
    refine ⟨by rw [h a], ?_⟩
    simp
    omega
  | succ k ih =>
    intro a ha
    by_cases hrem : (a : Int) < mr - 1
    · rw [getWithRetryFrom_retry server mr b a (h a) hrem]
      have hk : (mr - 1 - ((a : Nat) + 1 : Nat)).toNat ≤ k := by
        push_cast
        omega
      obtain ⟨hr, hn⟩ := ih (a + 1) hk
      refine ⟨hr, ?_⟩
      simp only [hn]
      push_cast
      omega
    · rw [getWithRetryFrom_stop server mr b a (fun hc => hrem hc.2)]
      rw [if_neg (by simp [h a, isSuccessStatus])]
      refine ⟨by rw [h a], ?_⟩
      simp
      omega

/-! ### Concrete servers used by the witnesses -/

/-- A server that is rate-limited on every attempt. -/
def server429 : Nat → Response := fun _ => ⟨429, .null⟩

/-- A server that always responds 404. -/
def server404 : Nat → Response := fun _ => ⟨404, .null⟩

/-- A server that always responds 200 with an empty JSON array. -/
def server200 : Nat → Response := fun _ => ⟨200, .arr []⟩

/-! ### Claims about the retrying fetcher -/

/-- C1: on a 429 with attempts remaining (`attempt < max_retries - 1`) the
fetcher sleeps `backoff_factor * 2 ^ attempt` seconds and retries; at most
`max_retries` requests are issued in total (for a positive budget); if
every attempt returns 429 the final attempt's HTTP 429 error is surfaced
after exactly the budgeted number of requests; and under the default
policy (`max_retries = 3`, `backoff_factor = 1.0`) the successive delays
are 1s then 2s. -/
theorem c1_retry_policy (server : Nat → Response) (mr : Int) (b : ℚ) (a : Nat)
    (h429 : (server a).status = 429) :
    ((a : Int) < mr - 1 →
      getWithRetryFrom server mr b a =
        { result := (getWithRetryFrom server mr b (a + 1)).result
          attempts := (getWithRetryFrom server mr b (a + 1)).attempts + 1
          delays := (2 : ℚ) ^ a * b :: (getWithRetryFrom server mr b (a + 1)).delays }) ∧
    (1 ≤ mr → (getWithRetry server mr b).attempts ≤ mr.toNat) ∧
    ((∀ n, (server n).status = 429) →
      (getWithRetry server mr b).result = .error 429 ∧
      (getWithRetry server mr b).attempts = max mr.toNat 1) ∧
    ((∀ n, (server n).status = 429) →
      (getWithRetry server 3 1).delays = [1, 2] ∧
      (getWithRetry server 3 1).attempts = 3) := by
  refine ⟨fun hrem => getWithRetryFrom_retry server mr b a h429 hrem, ?_, ?_, ?_⟩
  · intro hmr
    have h := getWithRetryFrom_attempts_le server mr b (mr - 1 - 0).toNat 0 (by simp)
    unfold getWithRetry
    omega
  · intro hall
    obtain ⟨hr, hn⟩ :=
      getWithRetryFrom_all429 server hall mr b (mr - 1 - 0).toNat 0 (by simp)
    refine ⟨hr, ?_⟩
    unfold getWithRetry
    omega
  · intro hall
    have s0 : getWithRetryFrom server 3 1 2 =
        { result := .error 429, attempts := 1, delays := [] } := by
      rw [getWithRetryFrom_stop server 3 1 2 (by simp)]
      rw [if_neg (by simp [hall 2, isSuccessStatus])]
      rw [hall 2]
    have s1 : getWithRetryFrom server 3 1 1 =
        { result := .error 429, attempts := 2, delays := [2] } := by
      rw [getWithRetryFrom_retry server 3 1 1 (hall 1) (by norm_num), s0]
      norm_num
    have s2 : getWithRetryFrom server 3 1 0 =
        { result := .error 429, attempts := 3, delays := [1, 2] } := by
      rw [getWithRetryFrom_retry server 3 1 0 (hall 0) (by norm_num), s1]
      norm_num
    unfold getWithRetry
    rw [s2]
    exact ⟨rfl, rfl⟩

/-- Witness for C1: the all-429 server under the default policy makes
three requests, sleeps 1s then 2s, and surfaces the 429 error. -/
theorem c1_retry_policy_witness :
    (getWithRetry server429 3 1).result = .error 429 ∧
    (getWithRetry server429 3 1).attempts = 3 ∧
    (getWithRetry server429 3 1).delays = [1, 2] := by
  have h := c1_retry_policy server429 3 1 0 rfl
  have hall : ∀ n, (server429 n).status = 429 := fun _ => rfl
  exact ⟨(h.2.2.1 hall).1, (h.2.2.2 hall).2, (h.2.2.2 hall).1⟩

/-- C2: a non-429 error status (any 4xx/5xx other than 429) on the first
request makes the fetcher raise that status immediately — one request, no
sleep; a 2xx first response returns the decoded body — one request, no
sleep. -/
theorem c2_immediate_error_or_success (server : Nat → Response) (mr : Int)
    (b : ℚ) (s : Nat) (hs : (server 0).status = s) :
    (400 ≤ s → s ≤ 599 → s ≠ 429 →
      getWithRetry server mr b =
        { result := .error s, attempts := 1, delays := [] }) ∧
    (200 ≤ s → s ≤ 299 →
      getWithRetry server mr b =
        { result := .ok (server 0).body, attempts := 1, delays := [] }) := by
  constructor
  · intro h4 h5 hne
    unfold getWithRetry
    rw [getWithRetryFrom_error server mr b 0
      (by simp [hs, isSuccessStatus]; omega)
      (fun hc => hne (hs ▸ hc.1))]
    rw [hs]
  · intro h2 h3
    unfold getWithRetry
    exact getWithRetryFrom_success server mr b 0
      (by simp [hs, isSuccessStatus]; omega)

/-- Witness for C2: a constant-404 server raises 404 after one request;
a constant-200 server returns its body after one request. -/
theorem c2_immediate_error_or_success_witness :
    getWithRetry server404 3 1 =
      { result := .error 404, attempts := 1, delays := [] } ∧
    getWithRetry server200 3 1 =
      { result := .ok (.arr []), attempts := 1, delays := [] } := by
  constructor
  · exact (c2_immediate_error_or_success server404 3 1 404 rfl).1
      (by norm_num) (by norm_num) (by norm_num)
  · exact (c2_immediate_error_or_success server200 3 1 200 rfl).2
      (by norm_num) (by norm_num)

/-- C9: with `max_retries ≤ 1` (including 0 and negative budgets) a 429
first response is raised immediately: one request, no sleep, no retry,
because `attempt < max_retries - 1` is already false at `attempt = 0`. -/
theorem c9_budget_le_one_no_retry (server : Nat → Response) (mr : Int)
    (b : ℚ) (hmr : mr ≤ 1) (h429 : (server 0).status = 429) :
    getWithRetry server mr b =
      { result := .error 429, attempts := 1, delays := [] } := by
  unfold getWithRetry
  rw [getWithRetryFrom_error server mr b 0
    (by simp [h429, isSuccessStatus])
    (fun hc => by omega)]
  rw [h429]

/-- Witness for C9: budgets 1, 0 and -2 each issue a single request and
raise the 429. -/
theorem c9_budget_le_one_no_retry_witness :
    getWithRetry server429 1 1 =
      { result := .error 429, attempts := 1, delays := [] } ∧
    getWithRetry server429 0 1 =
      { result := .error 429, attempts := 1, delays := [] } ∧
    getWithRetry server429 (-2) 1 =
      { result := .error 429, attempts := 1, delays := [] } :=
  ⟨c9_budget_le_one_no_retry server429 1 1 (by norm_num) rfl,
   c9_budget_le_one_no_retry server429 0 1 (by norm_num) rfl,
   c9_budget_le_one_no_retry server429 (-2) 1 (by norm_num) rfl⟩

/-! ### Claims about the payload normalizers -/

/-- A key that `List.lookup` finds is among the association list's keys. -/
theorem mem_keys_of_lookup {α : Type} (fields : List (String × α)) (k : String)
    (v : α) (h : fields.lookup k = some v) : k ∈ fields.map fun kv => kv.1 := by
  induction fields with
  | nil => simp [List.lookup] at h
  | cons kv rest ih =>
    rw [List.lookup] at h
    by_cases hk : k = kv.1
    · simp [hk]
    · have : (k == kv.1) = false := by simp [hk]
      rw [this] at h
      simp only [List.map, List.mem_cons]
      exact Or.inr (ih h)

/-- C3: the listings normalizer handles every supported payload shape with
the documented element rule (`str(item["id"])` for a dict with an `id`
field, `str(item)` otherwise), preserves encounter order and performs no
deduplication (both captured by `List.map`); a dict with a `results` list
normalizes that list, a dict without one yields its own stringified keys in
insertion order, and every non-list non-dict payload yields `[]`. -/
theorem c3_extract_listing_ids :
    (∀ items, extractListingIds (.arr items) = items.map listingId) ∧
    (∀ fields v, fields.lookup "id" = some v →
      listingId (.obj fields) = pyStr v) ∧
    (∀ fields, fields.lookup "id" = none →
      listingId (.obj fields) = pyStr (.obj fields)) ∧
    (∀ item, (∀ fields, item ≠ .obj fields) → listingId item = pyStr item) ∧
    (∀ fields results, fields.lookup "results" = some (.arr results) →
      extractListingIds (.obj fields) = results.map listingId) ∧
    (∀ fields, (∀ rs, fields.lookup "results" ≠ some (.arr rs)) →
      extractListingIds (.obj fields) = fields.map fun kv => kv.1) ∧
    extractListingIds .null = [] ∧
    (∀ b, extractListingIds (.bool b) = []) ∧
    (∀ n, extractListingIds (.num n) = []) ∧
    (∀ s, extractListingIds (.str s) = []) := by
  refine ⟨fun items => rfl, ?_, ?_, ?_, ?_, ?_, rfl, fun b => rfl,
    fun n => rfl, fun s => rfl⟩
  · intro fields v h
    simp only [listingId, h]
  · intro fields h
    simp only [listingId, h]
  · intro item h
    cases item with
    | obj fields => exact absurd rfl (h fields)
    | _ => rfl
  · intro fields results h
    simp only [extractListingIds, h]
  · intro fields h
    cases hr : fields.lookup "results" with
    | none => simp only [extractListingIds, hr]
    | some v =>
      cases v with
      | arr rs => exact absurd hr (h rs)
      | _ => simp only [extractListingIds, hr]

/-- Witness for C3: each supported shape on a concrete payload. -/
theorem c3_extract_listing_ids_witness :
    extractListingIds (.arr [.num 1, .obj [("id", .num 5)], .str "x"]) =
      ["1", "5", "x"] ∧
    extractListingIds (.obj [("results", .arr [.num 7, .obj [("id", .str "q")]])]) =
      ["7", "q"] ∧
    extractListingIds (.obj [("a", .num 1), ("b", .num 2)]) = ["a", "b"] ∧
    extractListingIds (.str "oops") = [] := by
  refine ⟨?_, ?_, ?_, ?_⟩
  · rw [c3_extract_listing_ids.1]
    rfl
  · rw [c3_extract_listing_ids.2.2.2.2.1
      [("results", .arr [.num 7, .obj [("id", .str "q")]])]
      [.num 7, .obj [("id", .str "q")]] rfl]
    rfl
  · rw [c3_extract_listing_ids.2.2.2.2.2.1 [("a", .num 1), ("b", .num 2)]
      (fun rs h => by simp [List.lookup] at h)]
    rfl
  · exact c3_extract_listing_ids.2.2.2.2.2.2.2.2.2 "oops"

/-- C4: the metrics-record normalizer returns `[]` for `null`, a list
as-is (elements unvalidated), a dict's `data` value when that is a list,
else its `results` value when that is a list, else the dict itself as a
single record, and `[]` for any other payload type. -/
theorem c4_extract_records :
    extractRecords .null = [] ∧
    (∀ items, extractRecords (.arr items) = items) ∧
    (∀ fields d, fields.lookup "data" = some (.arr d) →
      extractRecords (.obj fields) = d) ∧
    (∀ fields r, (∀ d, fields.lookup "data" ≠ some (.arr d)) →
      fields.lookup "results" = some (.arr r) →
      extractRecords (.obj fields) = r) ∧
    (∀ fields, (∀ d, fields.lookup "data" ≠ some (.arr d)) →
      (∀ r, fields.lookup "results" ≠ some (.arr r)) →
      extractRecords (.obj fields) = [.obj fields]) ∧
    (∀ b, extractRecords (.bool b) = []) ∧
    (∀ n, extractRecords (.num n) = []) ∧
    (∀ s, extractRecords (.str s) = []) := by
  have hdata : ∀ (fields : List (String × JVal)),
      (∀ d, fields.lookup "data" ≠ some (.arr d)) →
      extractRecords (.obj fields) =
        match fields.lookup "results" with
        | some (.arr r) => r
        | _ => [.obj fields] := by
    intro fields h
    cases hd : fields.lookup "data" with
    | none => simp only [extractRecords, hd]
    | some v =>
      cases v with
      | arr d => exact absurd hd (h d)
      | _ => simp only [extractRecords, hd]
  refine ⟨rfl, fun items => rfl, ?_, ?_, ?_, fun b => rfl, fun n => rfl,
    fun s => rfl⟩
  · intro fields d h
    simp only [extractRecords, h]
  · intro fields r hnd hr
    rw [hdata fields hnd, hr]
  · intro fields hnd hnr
    rw [hdata fields hnd]
    cases hr : fields.lookup "results" with
    | none => rfl
    | some v =>
      cases v with
      | arr r => exact absurd hr (hnr r)
      | _ => rfl

/-- Witness for C4: each supported shape on a concrete payload. -/
theorem c4_extract_records_witness :
    extractRecords (.obj [("data", .arr [.num 1]), ("results", .arr [])]) =
      [.num 1] ∧
    extractRecords (.obj [("data", .str "z"), ("results", .arr [.num 2])]) =
      [.num 2] ∧
    extractRecords (.obj [("x", .num 1)]) = [.obj [("x", .num 1)]] ∧
    extractRecords (.num 3) = [] := by
  refine ⟨?_, ?_, ?_, c4_extract_records.2.2.2.2.2.2.1 3⟩
  · exact c4_extract_records.2.2.1 _ [.num 1] rfl
  · exact c4_extract_records.2.2.2.1 _ [.num 2]
      (fun d h => by simp [List.lookup] at h) rfl
  · exact c4_extract_records.2.2.2.2.1 [("x", .num 1)]
      (fun d h => by simp [List.lookup] at h)
      (fun r h => by simp [List.lookup] at h)

/-- C10: a dict whose `results` value exists but is not a list falls back
to the key branch, so the normalizer returns the dict's stringified keys —
and in particular the key `results` itself appears among the IDs. -/
theorem c10_non_list_results_falls_back_to_keys
    (fields : List (String × JVal)) (v : JVal)
    (hv : fields.lookup "results" = some v) (hnl : ∀ rs, v ≠ .arr rs) :
    extractListingIds (.obj fields) = (fields.map fun kv => kv.1) ∧
    "results" ∈ extractListingIds (.obj fields) := by
  have heq : extractListingIds (.obj fields) = fields.map fun kv => kv.1 := by
    simp only [extractListingIds, hv]
    cases v with
    | arr rs => exact absurd rfl (hnl rs)
    | _ => rfl
  refine ⟨heq, ?_⟩
  rw [heq]
  exact mem_keys_of_lookup fields "results" v hv

/-- Witness for C10: `results` holding a string sends the normalizer to
the key fallback, and `"results"` is returned as an ID. -/
theorem c10_non_list_results_falls_back_to_keys_witness :
    extractListingIds (.obj [("results", .str "x"), ("a", .num 1)]) =
      ["results", "a"] ∧
    "results" ∈ extractListingIds (.obj [("results", .str "x"), ("a", .num 1)]) := by
  have h := c10_non_list_results_falls_back_to_keys
    [("results", .str "x"), ("a", .num 1)] (.str "x") rfl
    (fun rs hc => by cases hc)
  exact ⟨by rw [h.1]; rfl, h.2⟩

/-! ### Helper lemmas about the orchestrator -/

/-- Writes on paths not touched by a batch are untouched in the store. -/
theorem applyWrites_not_mem :
    ∀ (ws : List (String × Nat)) (store : Store) (p : String),
      p ∉ ws.map (fun w => w.1) → applyWrites ws store p = store p := by
  intro ws
  induction ws with
  | nil => intro store p _; rfl
  | cons w rest ih =>
    intro store p h
    simp only [List.map_cons, List.mem_cons, not_or] at h
    have hstep : applyWrites (w :: rest) store = applyWrites rest (applyWrite store w) := rfl
    rw [hstep, ih _ p h.2]
    simp [applyWrite, h.1]

/-- At a path some write in the batch touches, the final store content does
not depend on the initial store: each write replaces the file wholesale. -/
theorem applyWrites_indep :
    ∀ (ws : List (String × Nat)) (p : String) (s1 s2 : Store),
      p ∈ ws.map (fun w => w.1) →
      applyWrites ws s1 p = applyWrites ws s2 p := by
  intro ws
  induction ws with
  | nil => intro p s1 s2 h; simp at h
  | cons w rest ih =>
    intro p s1 s2 h
    have h1 : applyWrites (w :: rest) s1 = applyWrites rest (applyWrite s1 w) := rfl
    have h2 : applyWrites (w :: rest) s2 = applyWrites rest (applyWrite s2 w) := rfl
    by_cases hp : p ∈ rest.map (fun w => w.1)
    · rw [h1, h2]
      exact ih p _ _ hp
    · have hpw : p = w.1 := by
        simp only [List.map_cons, List.mem_cons] at h
        tauto
      rw [h1, h2, applyWrites_not_mem rest _ p hp, applyWrites_not_mem rest _ p hp]
      simp [applyWrite, hpw]

/-- When every metrics fetch succeeds, the per-listing loop finishes with
no failure and writes, echoes and counts exactly one entry per listing. -/
theorem processListings_ok (m : String → Nat → Response) (d : String)
    (B : String → JVal) :
    ∀ ids : List String,
      (∀ id ∈ ids, (getWithRetry (m id)).result = .ok (B id)) →
      processListings m d ids =
        { requests := (ids.map fun id => (getWithRetry (m id)).attempts).sum
          writes := ids.map fun id => (outPath id d, (extractRecords (B id)).length)
          stdout := ids.map fun id =>
            "Wrote metrics for listing " ++ id ++ " to " ++ outPath id d
          failed := none } := by
  intro ids
  induction ids with
  | nil => intro _; rfl
  | cons id rest ih =>
    intro h
    have hid := h id (List.mem_cons_self id rest)
    have hrest := ih fun j hj => h j (List.mem_cons_of_mem id hj)
    simp only [processListings]
    rw [hid, hrest]
    simp [List.map_cons, List.sum_cons]

/-- Every file the per-listing loop writes sits at the deterministic
output path of one of the listing IDs. -/
theorem processListings_writes (m : String → Nat → Response) (d : String) :
    ∀ ids : List String, ∀ w ∈ (processListings m d ids).writes,
      ∃ id ∈ ids, w.1 = outPath id d := by
  intro ids
  induction ids with
  | nil => intro w hw; simp [processListings] at hw
  | cons id rest ih =>
    intro w hw
    simp only [processListings] at hw
    cases hok : (getWithRetry (m id)).result with
    | error s =>
      rw [hok] at hw
      simp at hw
    | ok body =>
      rw [hok] at hw
      rcases List.mem_cons.mp hw with h1 | h2
      · exact ⟨id, List.mem_cons_self id rest, by rw [h1]⟩
      · obtain ⟨j, hj, hjp⟩ := ih w h2
        exact ⟨j, List.mem_cons_of_mem id hj, hjp⟩

/-- A missing (or Python-falsy empty) `WHEELHOUSE_BASE_URL` stops the run
before any request: message on stderr, exit code 1. -/
theorem etlRun_missing_base_url (env : Env) (server : Server) (d : String)
    (h : env.baseUrl = none ∨ env.baseUrl = some "") :
    etlRun env server d =
      { exitCode := 1
        stderr := ["Environment variable WHEELHOUSE_BASE_URL must be set."]
        stdout := [], requests := 0, writes := [] } := by
  obtain ⟨bu, ak⟩ := env
  rcases h with h | h
  · have hb : bu = none := h
    subst hb
    rfl
  · have hb : bu = some "" := h
    subst hb
    simp [etlRun]

/-- If the listings fetch surfaces an HTTP error, the run aborts with only
that fetch's requests issued and nothing written. -/
theorem etlRun_listings_error (env : Env) (server : Server) (d u : String)
    (hu : env.baseUrl = some u) (hne : u ≠ "") (s : Nat)
    (herr : (getWithRetry server.listings).result = .error s) :
    etlRun env server d =
      { exitCode := 1, stderr := [], stdout := []
        requests := (getWithRetry server.listings).attempts, writes := [] } := by
  obtain ⟨bu, ak⟩ := env
  have hb : bu = some u := hu
  subst hb
  simp only [etlRun]
  rw [if_neg hne, herr]

/-- Unfolding of a run whose listings fetch succeeds: either the
no-listings early exit or the per-listing loop. -/
theorem etlRun_ok_unfold (env : Env) (server : Server) (d u : String)
    (hu : env.baseUrl = some u) (hne : u ≠ "") (body : JVal)
    (hok : (getWithRetry server.listings).result = .ok body) :
    etlRun env server d =
      if (extractListingIds body).isEmpty then
        { exitCode := 0, stderr := []
          stdout := ["No listings returned from /listings endpoint."]
          requests := (getWithRetry server.listings).attempts, writes := [] }
      else
        { exitCode :=
            if (processListings server.metrics d (extractListingIds body)).failed.isSome
            then 1 else 0
          stderr := []
          stdout := (processListings server.metrics d (extractListingIds body)).stdout
          requests := (getWithRetry server.listings).attempts +
            (processListings server.metrics d (extractListingIds body)).requests
          writes := (processListings server.metrics d (extractListingIds body)).writes } := by
  obtain ⟨bu, ak⟩ := env
  have hb : bu = some u := hu
  subst hb
  simp only [etlRun]
  rw [if_neg hne, hok]

/-! ### A concrete end-to-end scenario (spec §8): listings `[{"id": 1}]`,
first `/listings` call 429, second 200; metrics payload an empty list;
target date `2025-07-01`. -/

/-- The listings payload `[{"id": 1}]`. -/
def cListings : JVal := .arr [.obj [("id", .num 1)]]

/-- Listings endpoint: 429 on the first attempt, then success. -/
def listSrv : Nat → Response := fun n =>
  if n = 0 then ⟨429, .null⟩ else ⟨200, cListings⟩

/-- Metrics endpoint: always 200 with an empty list. -/
def metricsEmpty : String → Nat → Response := fun _ _ => ⟨200, .arr []⟩

/-- The scenario's server. -/
def cServer : Server := ⟨listSrv, metricsEmpty⟩

/-- A server whose listings payload is an empty list. -/
def eServer : Server := ⟨server200, metricsEmpty⟩

/-- The scenario's environment. -/
def cEnv : Env := ⟨some "http://testserver", none⟩

/-- Evaluating the retrying fetch against `listSrv`: one 429, one sleep of
1s, then the payload. -/
theorem listSrv_fetch :
    getWithRetry listSrv = { result := .ok cListings, attempts := 2, delays := [1] } := by
  unfold getWithRetry
  rw [getWithRetryFrom_retry listSrv 3 1 0 rfl (by norm_num)]
  rw [getWithRetryFrom_success listSrv 3 1 1 rfl]
  norm_num
  rfl

/-- Evaluating the retrying fetch against `metricsEmpty`. -/
theorem metricsEmpty_fetch (id : String) :
    getWithRetry (metricsEmpty id) =
      { result := .ok (.arr []), attempts := 1, delays := [] } := by
  unfold getWithRetry
  exact getWithRetryFrom_success (metricsEmpty id) 3 1 0 rfl

/-- Evaluating the whole scenario run: success, one zero-row artifact. -/
theorem cRun_eval :
    etlRun cEnv cServer "2025-07-01" =
      { exitCode := 0, stderr := []
        stdout := ["Wrote metrics for listing 1 to data/raw/1/2025-07-01.parquet"]
        requests := 3
        writes := [("data/raw/1/2025-07-01.parquet", 0)] } := by
  rw [etlRun_ok_unfold cEnv cServer "2025-07-01" "http://testserver" rfl
    (by decide) cListings (by rw [show getWithRetry cServer.listings = getWithRetry listSrv from rfl, listSrv_fetch])]
  rw [show extractListingIds cListings = ["1"] from rfl]
  rw [if_neg (by decide)]
  rw [processListings_ok cServer.metrics "2025-07-01" (fun _ => .arr []) ["1"]
    (fun id _ => by rw [show getWithRetry (cServer.metrics id) = getWithRetry (metricsEmpty id) from rfl, metricsEmpty_fetch id])]
  rw [show getWithRetry cServer.listings = getWithRetry listSrv from rfl, listSrv_fetch]
  have hm : getWithRetry (cServer.metrics "1") =
      { result := .ok (.arr []), attempts := 1, delays := [] } := metricsEmpty_fetch "1"
  simp only [List.map_cons, List.map_nil, List.sum_cons, List.sum_nil, hm]
  rfl

/-! ### Claims about the orchestrator -/

/-- C5: each (listing ID, date) pair determines exactly one output path,
`data/raw/{id}/{date}.parquet`; every file a run writes sits at such a
path; and at any path a run writes, the final store content is independent
of what was there before — a rerun replaces the artifact wholesale rather
than merging or appending. -/
theorem c5_deterministic_overwrite (env : Env) (server : Server) (d : String) :
    (∀ lid dt, outPath lid dt = "data/raw/" ++ lid ++ "/" ++ dt ++ ".parquet") ∧
    (∀ w ∈ (etlRun env server d).writes, ∃ lid, w.1 = outPath lid d) ∧
    (∀ (p : String) (s1 s2 : Store),
      p ∈ (etlRun env server d).writes.map (fun w => w.1) →
      applyWrites (etlRun env server d).writes s1 p =
        applyWrites (etlRun env server d).writes s2 p) := by
  refine ⟨fun lid dt => rfl, ?_, ?_⟩
  · intro w hw
    obtain ⟨bu, ak⟩ := env
    cases bu with
    | none =>
      rw [etlRun_missing_base_url ⟨none, ak⟩ server d (Or.inl rfl)] at hw
      simp at hw
    | some u =>
      by_cases hu : u = ""
      · rw [etlRun_missing_base_url ⟨some u, ak⟩ server d (Or.inr (by rw [hu]))] at hw
        simp at hw
      · cases hok : (getWithRetry server.listings).result with
        | error s =>
          rw [etlRun_listings_error ⟨some u, ak⟩ server d u rfl hu s hok] at hw
          simp at hw
        | ok body =>
          rw [etlRun_ok_unfold ⟨some u, ak⟩ server d u rfl hu body hok] at hw
          by_cases hids : (extractListingIds body).isEmpty
          · rw [if_pos hids] at hw
            simp at hw
          · rw [if_neg hids] at hw
            obtain ⟨lid, _, hp⟩ :=
              processListings_writes server.metrics d (extractListingIds body) w hw
            exact ⟨lid, hp⟩
  · intro p s1 s2 hp
    exact applyWrites_indep _ p s1 s2 hp

/-- Witness for C5: in the concrete scenario the single write lands at the
deterministic path for listing 1, and replaying the run's writes over two
very different prior stores leaves the same content there. -/
theorem c5_deterministic_overwrite_witness :
    (∃ lid, ("data/raw/1/2025-07-01.parquet", 0).1 = outPath lid "2025-07-01") ∧
    applyWrites (etlRun cEnv cServer "2025-07-01").writes (fun _ => none)
        "data/raw/1/2025-07-01.parquet" =
      applyWrites (etlRun cEnv cServer "2025-07-01").writes (fun _ => some 99)
        "data/raw/1/2025-07-01.parquet" := by
  have h := c5_deterministic_overwrite cEnv cServer "2025-07-01"
  have hw : ("data/raw/1/2025-07-01.parquet", 0) ∈ (etlRun cEnv cServer "2025-07-01").writes := by
    rw [cRun_eval]
    exact List.mem_singleton.mpr rfl
  refine ⟨h.2.1 _ hw, h.2.2 _ _ _ ?_⟩
  rw [cRun_eval]
  simp

/-- C6: a run whose listings payload yields zero IDs reports it on stdout
and terminates with exit code 0; only the listings fetch's requests were
issued (no metrics request) and nothing is written. -/
theorem c6_zero_listings_success (env : Env) (server : Server) (d u : String)
    (hu : env.baseUrl = some u) (hne : u ≠ "") (body : JVal)
    (hok : (getWithRetry server.listings).result = .ok body)
    (hids : extractListingIds body = []) :
    etlRun env server d =
      { exitCode := 0, stderr := []
        stdout := ["No listings returned from /listings endpoint."]
        requests := (getWithRetry server.listings).attempts
        writes := [] } := by
  rw [etlRun_ok_unfold env server d u hu hne body hok, hids]
  rfl

/-- Witness for C6: an empty listings array ends the run successfully
after the one listings request, with no writes. -/
theorem c6_zero_listings_success_witness :
    etlRun cEnv eServer "2025-07-01" =
      { exitCode := 0, stderr := []
        stdout := ["No listings returned from /listings endpoint."]
        requests := 1, writes := [] } := by
  have h200 : getWithRetry eServer.listings =
      { result := .ok (.arr []), attempts := 1, delays := [] } := by
    unfold getWithRetry
    exact getWithRetryFrom_success server200 3 1 0 rfl
  have h := c6_zero_listings_success cEnv eServer "2025-07-01" "http://testserver"
    rfl (by decide) (.arr []) (by rw [h200]) rfl
  rw [h, h200]

/-- C7: with the base-URL configuration absent (unset, or empty and hence
Python-falsy), the run prints a message to stderr and exits with code 1
before issuing any network request. -/
theorem c7_missing_base_url_exits (env : Env) (server : Server) (d : String)
    (h : env.baseUrl = none ∨ env.baseUrl = some "") :
    etlRun env server d =
      { exitCode := 1
        stderr := ["Environment variable WHEELHOUSE_BASE_URL must be set."]
        stdout := [], requests := 0, writes := [] } :=
  etlRun_missing_base_url env server d h

/-- Witness for C7: both an unset and an empty base URL exit 1 on stderr
with zero requests. -/
theorem c7_missing_base_url_exits_witness :
    etlRun ⟨none, none⟩ cServer "2025-07-01" =
      { exitCode := 1
        stderr := ["Environment variable WHEELHOUSE_BASE_URL must be set."]
        stdout := [], requests := 0, writes := [] } ∧
    etlRun ⟨some "", none⟩ cServer "2025-07-01" =
      { exitCode := 1
        stderr := ["Environment variable WHEELHOUSE_BASE_URL must be set."]
        stdout := [], requests := 0, writes := [] } :=
  ⟨c7_missing_base_url_exits ⟨none, none⟩ cServer "2025-07-01" (Or.inl rfl),
   c7_missing_base_url_exits ⟨some "", none⟩ cServer "2025-07-01" (Or.inr rfl)⟩

/-- C8: when a run succeeds end to end and some listing's metrics payload
normalizes to an empty record list, a zero-row artifact is still written
at that listing's deterministic path and the run exits 0. -/
theorem c8_empty_records_artifact (env : Env) (server : Server) (d u : String)
    (hu : env.baseUrl = some u) (hne : u ≠ "") (L : JVal) (B : String → JVal)
    (hok : (getWithRetry server.listings).result = .ok L)
    (hall : ∀ id ∈ extractListingIds L,
      (getWithRetry (server.metrics id)).result = .ok (B id))
    (id : String) (hid : id ∈ extractListingIds L)
    (hempty : extractRecords (B id) = []) :
    (etlRun env server d).exitCode = 0 ∧
    (outPath id d, 0) ∈ (etlRun env server d).writes := by
  rw [etlRun_ok_unfold env server d u hu hne L hok]
  have hne2 : (extractListingIds L).isEmpty = false := by
    cases h : extractListingIds L with
    | nil =>
      rw [h] at hid
      cases hid
    | cons a as => rfl
  rw [if_neg (by simp [hne2])]
  rw [processListings_ok server.metrics d B _ hall]
  refine ⟨rfl, ?_⟩
  have : (outPath id d, 0) = (outPath id d, (extractRecords (B id)).length) := by
    rw [hempty]
    rfl
  rw [this]
  exact List.mem_map_of_mem _ hid

/-- Witness for C8: the concrete scenario run exits 0 and writes the
zero-row artifact `data/raw/1/2025-07-01.parquet`. -/
theorem c8_empty_records_artifact_witness :
    (etlRun cEnv cServer "2025-07-01").exitCode = 0 ∧
    (outPath "1" "2025-07-01", 0) ∈ (etlRun cEnv cServer "2025-07-01").writes :=
  c8_empty_records_artifact cEnv cServer "2025-07-01" "http://testserver" rfl
    (by decide) cListings (fun _ => .arr [])
    (by rw [show getWithRetry cServer.listings = getWithRetry listSrv from rfl, listSrv_fetch])
    (fun id _ => by
      rw [show getWithRetry (cServer.metrics id) = getWithRetry (metricsEmpty id) from rfl,
        metricsEmpty_fetch id])
    "1" (by decide) rfl

end SrgRm
